import Mathlib

/-!
Shallow embedding of the bike-rental registry in `src/app.ts`.

Arrays become lists, in-place mutation of a found element becomes an
update of the first matching list element, thrown errors become the
`Except.error` component of a `(result, state)` pair returned in source
order (the state component records the collections as left by the
operation, so a failure that happens before any mutation returns the
input state unchanged, exactly as the source does).  `crypto.randomUUID`
and `new Date()` are oracles passed as explicit arguments: the spec
guarantees only that generated identifiers are globally unique, which
reachability hypotheses record where it matters.  Timestamps are
`Date.getTime()` millisecond values, modelled as rationals, as are rates
and coordinates.
-/

namespace Poo10

/-- Modelled from the spec: entity `Location` (src/location.ts is absent
from the sources) — a latitude/longitude pair with value semantics. -/
structure Location where
  latitude : ℚ
  longitude : ℚ
deriving DecidableEq

/-- Modelled from the spec: entity `User` (src/user.ts is absent) —
identifier, unique email, password (plaintext on input, replaced by a
hash on registration). -/
structure User where
  id : String
  email : String
  password : String
deriving DecidableEq

/-- Modelled from the spec: entity `Bike` (src/bike.ts is absent) —
identifier, hourly rate, availability flag, geolocation. -/
structure Bike where
  id : String
  rate : ℚ
  available : Bool
  location : Location
deriving DecidableEq

/-- Modelled from the spec: entity `Rent` (src/rent.ts is absent) —
references one bike and one user (represented by bike id and user email,
mirroring the object references of the source), a start timestamp, and an
end timestamp that is absent while the rent is open.  The source field
`end` is called `endTime` here because `end` is a Lean keyword. -/
structure Rent where
  bikeId : String
  userEmail : String
  start : ℚ
  endTime : Option ℚ
deriving DecidableEq

/-- Failure kinds thrown by src/app.ts, one per distinct error message or
error class: 'User not found.', 'Duplicate user.',
'User has open rents, cannot be removed.', 'User does not exist.',
`BikeNotFoundError`, `UnavailableBikeError`, `RentNotFoundError`. -/
inductive Err where
  | userNotFound
  | duplicateUser
  | userHasOpenRents
  | userDoesNotExist
  | bikeNotFound
  | unavailableBike
  | rentNotFound
deriving DecidableEq

/-- State of class `App`: the `users`, `bikes` and `rents` arrays. -/
structure AppState where
  users : List User
  bikes : List Bike
  rents : List Rent
deriving DecidableEq

/-- A freshly constructed `App`: all three collections empty. -/
def emptyApp : AppState := ⟨[], [], []⟩

/-- Replace the first element satisfying `p` by its `f`-image: the effect
on an array of mutating, in place, the element returned by `find` /
`findIndex`. -/
def updateFirst (p : α → Bool) (f : α → α) : List α → List α
  | [] => []
  | x :: xs => if p x then f x :: xs else x :: updateFirst p f xs

/-- Drop the first element satisfying `p`: the effect of
`findIndex` followed by `splice(index, 1)`. -/
def removeFirst (p : α → Bool) : List α → List α
  | [] => []
  | x :: xs => if p x then xs else x :: removeFirst p xs

/-- Method `App.findUser`: linear scan of `users` by email equality,
throwing 'User not found.' when there is no match. -/
def findUser (s : AppState) (email : String) : Except Err User :=
  match s.users.find? (fun user => user.email == email) with
  | none => Except.error Err.userNotFound
  | some user => Except.ok user

/-- Method `App.registerUser`: throws 'Duplicate user.' when some stored
user has the same email; otherwise assigns the freshly generated
identifier (`crypto.randomUUID()`, supplied here as the oracle `newId`),
replaces the password by its hash (`crypt.encrypt`, supplied as the
function `encrypt`), appends the user, and returns the identifier. -/
def registerUser (s : AppState) (user : User) (newId : String)
    (encrypt : String → String) : Except Err String × AppState :=
  if s.users.any (fun rUser => rUser.email == user.email) then
    (Except.error Err.duplicateUser, s)
  else
    (Except.ok newId,
      { s with users :=
          s.users ++ [{ user with id := newId, password := encrypt user.password }] })

/-- Method `App.registerBike`: assigns the freshly generated identifier,
appends the bike, and returns the identifier; no duplicate check. -/
def registerBike (s : AppState) (bike : Bike) (newId : String) :
    String × AppState :=
  (newId, { s with bikes := s.bikes ++ [{ bike with id := newId }] })

/-- Method `App.removeUser`: `findIndex` by email; when it succeeds,
queries the rent-lookup collaborator (`rentRepo.findOpenRentsFor`,
supplied as the function `openRentsFor`) and throws
'User has open rents, cannot be removed.' when the result is non-empty,
otherwise splices the user out; when the index lookup fails it throws
'User does not exist.'. -/
def removeUser (s : AppState) (openRentsFor : String → List Rent)
    (email : String) : Except Err Unit × AppState :=
  match s.users.find? (fun user => user.email == email) with
  | some _ =>
      if 0 < (openRentsFor email).length then
        (Except.error Err.userHasOpenRents, s)
      else
        (Except.ok (),
          { s with users := removeFirst (fun user => user.email == email) s.users })
  | none => (Except.error Err.userDoesNotExist, s)

/-- Method `App.findBike`: linear scan of `bikes` by id, throwing
`BikeNotFoundError` when there is no match. -/
def findBike (s : AppState) (bikeId : String) : Except Err Bike :=
  match s.bikes.find? (fun bike => bike.id == bikeId) with
  | none => Except.error Err.bikeNotFound
  | some bike => Except.ok bike

/-- Method `App.getBikeById`: alias of `findBike`. -/
def getBikeById (s : AppState) (bikeId : String) : Except Err Bike :=
  findBike s bikeId

/-- Method `App.getUserByEmail`: the non-throwing lookup, returning an
absent result when no user has the email. -/
def getUserByEmail (s : AppState) (email : String) : Option User :=
  s.users.find? (fun user => user.email == email)

/-- Method `App.rentBike`: finds the bike (throws `BikeNotFoundError`),
throws `UnavailableBikeError` when its availability flag is false, finds
the user (throws 'User not found.'), then sets the found bike's
availability to false and appends a new open rent whose start is the
current time (`new Date()`, supplied as the oracle `now`). -/
def rentBike (s : AppState) (bikeId userEmail : String) (now : ℚ) :
    Except Err Unit × AppState :=
  match findBike s bikeId with
  | Except.error e => (Except.error e, s)
  | Except.ok bike =>
      if bike.available = false then
        (Except.error Err.unavailableBike, s)
      else
        match findUser s userEmail with
        | Except.error e => (Except.error e, s)
        | Except.ok user =>
            (Except.ok (),
              { s with
                  bikes := updateFirst (fun b => b.id == bikeId)
                    (fun b => { b with available := false }) s.bikes,
                  rents := s.rents ++ [⟨bike.id, user.email, now, none⟩] })

/-- Function `diffHours(dt2, dt1)`: millisecond difference divided by
1000 (seconds), divided by 60 * 60 (hours), absolute value. -/
def diffHours (dt2 dt1 : ℚ) : ℚ :=
  |((dt2 - dt1) / 1000) / (60 * 60)|

/-- The predicate of the `find` inside `returnBike`: same bike id, same
user email, and no end timestamp. -/
def rentMatches (bikeId userEmail : String) (r : Rent) : Bool :=
  r.bikeId == bikeId && r.userEmail == userEmail && r.endTime.isNone

/-- Method `App.returnBike`: finds the first open rent matching bike id
and user email (throws `RentNotFoundError` when none), sets its end
timestamp to the current time, sets the referenced bike's availability
back to true, and returns `diffHours(end, start) * bike.rate`.  The
source reaches the bike through the object reference `rent.bike`; the
id-based embedding resolves that reference in the `bikes` collection,
which represents exactly the states whose rents reference registered
bikes — the failure branch for an unresolvable reference is
unreachable from such states. -/
def returnBike (s : AppState) (bikeId userEmail : String) (now : ℚ) :
    Except Err ℚ × AppState :=
  match s.rents.find? (rentMatches bikeId userEmail) with
  | none => (Except.error Err.rentNotFound, s)
  | some rent =>
      match s.bikes.find? (fun b => b.id == rent.bikeId) with
      | none => (Except.error Err.bikeNotFound, s)
      | some bike =>
          (Except.ok (diffHours now rent.start * bike.rate),
            { s with
                rents := updateFirst (rentMatches bikeId userEmail)
                  (fun r => { r with endTime := some now }) s.rents,
                bikes := updateFirst (fun b => b.id == rent.bikeId)
                  (fun b => { b with available := true }) s.bikes })

/-- Method `App.moveBikeTo`: finds the bike (throws `BikeNotFoundError`)
and overwrites its latitude and longitude with the given location's
values. -/
def moveBikeTo (s : AppState) (bikeId : String) (location : Location) :
    Except Err Unit × AppState :=
  match findBike s bikeId with
  | Except.error e => (Except.error e, s)
  | Except.ok _ =>
      let newBikes :=
        updateFirst (fun b => b.id == bikeId)
          (fun b => { b with location := ⟨location.latitude, location.longitude⟩ })
          s.bikes
      (Except.ok (), { s with bikes := newBikes })

/-- Method `App.listUsers`. -/
def listUsers (s : AppState) : List User := s.users

/-- Method `App.listBikes`. -/
def listBikes (s : AppState) : List Bike := s.bikes

/-- Method `App.listRents`. -/
def listRents (s : AppState) : List Rent := s.rents

/-- Open rents referencing a given bike id. -/
def openFor (rents : List Rent) (bid : String) : List Rent :=
  rents.filter (fun r => r.bikeId == bid && r.endTime.isNone)

/-- The coupling invariant of claim C1, exactly as stated: a bike's
availability flag is false iff some open rent references it. -/
def InvC1 (s : AppState) : Prop :=
  ∀ bike ∈ s.bikes,
    (bike.available = false ↔ ∃ r ∈ s.rents, r.bikeId = bike.id ∧ r.endTime = none)

/-- Strengthened inductive invariant: bike ids are pairwise distinct,
availability is false exactly when an open rent references the bike, and
every bike id has at most one open rent. -/
def Inv (s : AppState) : Prop :=
  (s.bikes.map Bike.id).Nodup ∧
  (∀ bike ∈ s.bikes, (bike.available = false ↔ openFor s.rents bike.id ≠ [])) ∧
  (∀ bid : String, (openFor s.rents bid).length ≤ 1)

/-- States reachable from the empty registry by the registry operations,
with arbitrary arguments; the oracles for `crypto.randomUUID` respect its
guarantee of global uniqueness, the other oracles are arbitrary. -/
inductive Reachable : AppState → Prop where
  | init : Reachable emptyApp
  | regUser {s} (user : User) (newId : String) (encrypt : String → String) :
      Reachable s → Reachable (registerUser s user newId encrypt).2
  | regBike {s} (bike : Bike) (newId : String) :
      Reachable s →
      (∀ b ∈ s.bikes, b.id ≠ newId) → (∀ r ∈ s.rents, r.bikeId ≠ newId) →
      Reachable (registerBike s bike newId).2
  | rent {s} (bikeId userEmail : String) (now : ℚ) :
      Reachable s → Reachable (rentBike s bikeId userEmail now).2
  | ret {s} (bikeId userEmail : String) (now : ℚ) :
      Reachable s → Reachable (returnBike s bikeId userEmail now).2
  | remove {s} (openRentsFor : String → List Rent) (email : String) :
      Reachable s → Reachable (removeUser s openRentsFor email).2
  | move {s} (bikeId : String) (location : Location) :
      Reachable s → Reachable (moveBikeTo s bikeId location).2

/-- States reachable as in `Reachable`, but where every `registerBike`
call supplies a bike whose availability flag is true. -/
inductive ReachableAvail : AppState → Prop where
  | init : ReachableAvail emptyApp
  | regUser {s} (user : User) (newId : String) (encrypt : String → String) :
      ReachableAvail s → ReachableAvail (registerUser s user newId encrypt).2
  | regBike {s} (bike : Bike) (newId : String) :
      ReachableAvail s → bike.available = true →
      (∀ b ∈ s.bikes, b.id ≠ newId) → (∀ r ∈ s.rents, r.bikeId ≠ newId) →
      ReachableAvail (registerBike s bike newId).2
  | rent {s} (bikeId userEmail : String) (now : ℚ) :
      ReachableAvail s → ReachableAvail (rentBike s bikeId userEmail now).2
  | ret {s} (bikeId userEmail : String) (now : ℚ) :
      ReachableAvail s → ReachableAvail (returnBike s bikeId userEmail now).2
  | remove {s} (openRentsFor : String → List Rent) (email : String) :
      ReachableAvail s → ReachableAvail (removeUser s openRentsFor email).2
  | move {s} (bikeId : String) (location : Location) :
      ReachableAvail s → ReachableAvail (moveBikeTo s bikeId location).2

/-- Open rents reported to the rent-lookup collaborator contract for a
sample scenario: one open rent for the given email. -/
def oneOpenRent (email : String) : List Rent := [⟨"b9", email, 0, none⟩]

/-- A sample location used in witnesses. -/
def loc0 : Location := ⟨1, 2⟩

/-- A sample user used in witnesses. -/
def alice : User := ⟨"u1", "alice@x", "pw"⟩

/-- A sample bike (available) used in witnesses. -/
def bike0 : Bike := ⟨"b0", 10, true, loc0⟩

/-- A sample unavailable bike used in witnesses. -/
def bike1 : Bike := ⟨"b1", 10, false, loc0⟩

/-- A sample state used in witnesses: one registered user and one
registered available bike. -/
def sState : AppState := ⟨[alice], [bike0], []⟩

/-- A sample state used in witnesses: one user, one unavailable bike, and
the open rent that made it unavailable. -/
def sRented : AppState := ⟨[alice], [bike1], [⟨"b1", "alice@x", 0, none⟩]⟩

theorem updateFirst_append_cons (p : α → Bool) (f : α → α) (l1 l2 : List α) (x : α)
    (h1 : ∀ y ∈ l1, p y = false) (hx : p x = true) :
    updateFirst p f (l1 ++ x :: l2) = l1 ++ f x :: l2 := by
  induction l1 with
  | nil => simp [updateFirst, hx]
  | cons a as ih =>
      have ha := h1 a (List.mem_cons_self a as)
      simp only [List.cons_append, updateFirst, ha, Bool.false_eq_true, if_false,
        List.append_eq]
      rw [ih (fun y hy => h1 y (List.mem_cons_of_mem a hy))]

theorem removeFirst_append_cons (p : α → Bool) (l1 l2 : List α) (x : α)
    (h1 : ∀ y ∈ l1, p y = false) (hx : p x = true) :
    removeFirst p (l1 ++ x :: l2) = l1 ++ l2 := by
  induction l1 with
  | nil => simp [removeFirst, hx]
  | cons a as ih =>
      have ha := h1 a (List.mem_cons_self a as)
      simp only [List.cons_append, removeFirst, ha, Bool.false_eq_true, if_false,
        List.append_eq]
      rw [ih (fun y hy => h1 y (List.mem_cons_of_mem a hy))]

theorem find?_decomp {p : α → Bool} {l : List α} {x : α} (h : l.find? p = some x) :
    p x = true ∧ ∃ l1 l2, l = l1 ++ x :: l2 ∧ ∀ y ∈ l1, p y = false := by
  rw [List.find?_eq_some] at h
  obtain ⟨hp, l1, l2, heq, hall⟩ := h
  exact ⟨hp, l1, l2, heq, fun y hy => by simpa using hall y hy⟩

theorem find?_none_of_all {p : α → Bool} {l : List α}
    (h : ∀ y ∈ l, p y = false) : l.find? p = none := by
  rw [List.find?_eq_none]
  intro x hx
  simp [h x hx]

theorem map_updateFirst (g : α → β) (p : α → Bool) (f : α → α) (l : List α)
    (hf : ∀ x, g (f x) = g x) : (updateFirst p f l).map g = l.map g := by
  induction l with
  | nil => rfl
  | cons a as ih =>
      unfold updateFirst
      split <;> simp [hf, ih]

theorem mem_updateFirst {p : α → Bool} {f : α → α} {l : List α} {y : α}
    (hy : y ∈ updateFirst p f l) : y ∈ l ∨ ∃ x ∈ l, y = f x := by
  induction l with
  | nil => simp [updateFirst] at hy
  | cons a as ih =>
      unfold updateFirst at hy
      split at hy
      · rcases List.mem_cons.mp hy with h | h
        · exact Or.inr ⟨a, List.mem_cons_self a as, h⟩
        · exact Or.inl (List.mem_cons_of_mem a h)
      · rcases List.mem_cons.mp hy with h | h
        · exact Or.inl (h ▸ List.mem_cons_self a as)
        · rcases ih h with h2 | ⟨x, hx, hfx⟩
          · exact Or.inl (List.mem_cons_of_mem a h2)
          · exact Or.inr ⟨x, List.mem_cons_of_mem a hx, hfx⟩

theorem findBike_ok {s : AppState} {bikeId : String} {bike : Bike} :
    findBike s bikeId = Except.ok bike ↔
      s.bikes.find? (fun b => b.id == bikeId) = some bike := by
  unfold findBike
  cases h : s.bikes.find? (fun b => b.id == bikeId) <;> simp

theorem findUser_ok {s : AppState} {email : String} {user : User} :
    findUser s email = Except.ok user ↔
      s.users.find? (fun u => u.email == email) = some user := by
  unfold findUser
  cases h : s.users.find? (fun u => u.email == email) <;> simp

theorem openFor_append (l1 l2 : List Rent) (bid : String) :
    openFor (l1 ++ l2) bid = openFor l1 bid ++ openFor l2 bid :=
  List.filter_append _ _

theorem openFor_ne_nil_iff (rents : List Rent) (bid : String) :
    openFor rents bid ≠ [] ↔ ∃ r ∈ rents, r.bikeId = bid ∧ r.endTime = none := by
  unfold openFor
  rw [Ne, List.filter_eq_nil_iff]
  push_neg
  constructor
  · rintro ⟨r, hr, hp⟩
    refine ⟨r, hr, ?_⟩
    simpa [Option.isNone_iff_eq_none] using hp
  · rintro ⟨r, hr, hbid, hend⟩
    exact ⟨r, hr, by simp [hbid, hend]⟩

theorem openFor_nil_of_fresh {rents : List Rent} {bid : String}
    (h : ∀ r ∈ rents, r.bikeId ≠ bid) : openFor rents bid = [] := by
  unfold openFor
  rw [List.filter_eq_nil_iff]
  intro r hr
  simp [h r hr]

theorem registerUser_frame (s : AppState) (user : User) (newId : String)
    (encrypt : String → String) :
    (registerUser s user newId encrypt).2.bikes = s.bikes ∧
    (registerUser s user newId encrypt).2.rents = s.rents := by
  unfold registerUser
  split <;> exact ⟨rfl, rfl⟩

theorem removeUser_frame (s : AppState) (openRentsFor : String → List Rent)
    (email : String) :
    (removeUser s openRentsFor email).2.bikes = s.bikes ∧
    (removeUser s openRentsFor email).2.rents = s.rents := by
  unfold removeUser
  cases s.users.find? (fun user => user.email == email) with
  | none => exact ⟨rfl, rfl⟩
  | some u =>
      dsimp only []
      split <;> exact ⟨rfl, rfl⟩

/-- C4 counterexample: on the empty registry (no user has the email),
`removeUser` fails with the `UserDoesNotExist` kind ('User does not
exist.'), which is a different kind from `UserNotFound` ('User not
found.'). -/
theorem removeUser_absent_counterexample :
    (removeUser emptyApp (fun _ => []) "a@x").1 = Except.error Err.userDoesNotExist ∧
    Err.userDoesNotExist ≠ Err.userNotFound :=
  ⟨rfl, by decide⟩

/-- C4 (amended): for every state and email with no matching user in the
user collection, `removeUser(email)` fails with the `UserDoesNotExist`
error kind and leaves the state unchanged — the existence check runs
before the open-rents check, there is no post-check defensive path, and
`removeUser` never raises the `UserNotFound` kind (here recorded at a
second arbitrary input). -/
theorem removeUser_absent_spec (s : AppState) (openRentsFor : String → List Rent)
    (email : String)
    (habs : ∀ v ∈ s.users, v.email ≠ email)
    (s2 : AppState) (orf2 : String → List Rent) (e2 : String) :
    removeUser s openRentsFor email = (Except.error Err.userDoesNotExist, s) ∧
    (removeUser s2 orf2 e2).1 ≠ Except.error Err.userNotFound := by
  constructor
  · have hnone : s.users.find? (fun u => u.email == email) = none :=
      find?_none_of_all (fun y hy => by simp [habs y hy])
    simp [removeUser, hnone]
  · unfold removeUser
    cases s2.users.find? (fun u => u.email == e2) with
    | none => simp
    | some u =>
        dsimp only []
        split <;> simp

/-- Witness for the amended C4 theorem at concrete inputs. -/
theorem removeUser_absent_spec_witness :
    removeUser sState (fun _ => []) "bob@y" =
      (Except.error Err.userDoesNotExist, sState) ∧
    (removeUser sState (fun _ => []) "alice@x").1 ≠
      Except.error Err.userNotFound :=
  removeUser_absent_spec sState (fun _ => []) "bob@y" (by decide)
    sState (fun _ => []) "alice@x"

/-- C5: registering a user whose email is already present fails with
`DuplicateUser` and leaves the state (hence the original stored record
and the length of the collection) unchanged; registering a user with an
unused email appends the user with the freshly generated identifier and
the hashed password, and returns that identifier.  The two scenarios are
recorded at two independent sets of inputs. -/
theorem registerUser_spec (s : AppState) (user : User) (newId : String)
    (encrypt : String → String)
    (s2 : AppState) (user2 : User) (newId2 : String) (encrypt2 : String → String)
    (hdup : ∃ u ∈ s.users, u.email = user.email)
    (hfree : ∀ u ∈ s2.users, u.email ≠ user2.email) :
    registerUser s user newId encrypt = (Except.error Err.duplicateUser, s) ∧
    registerUser s2 user2 newId2 encrypt2 =
      (Except.ok newId2,
        { s2 with users := s2.users ++
            [{ user2 with id := newId2, password := encrypt2 user2.password }] }) := by
  constructor
  · have hany : s.users.any (fun rUser => rUser.email == user.email) = true := by
      rw [List.any_eq_true]
      obtain ⟨u, hu, he⟩ := hdup
      exact ⟨u, hu, by simp [he]⟩
    simp [registerUser, hany]
  · have hany : s2.users.any (fun rUser => rUser.email == user2.email) = false := by
      rw [List.any_eq_false]
      intro u hu
      simp [hfree u hu]
    simp [registerUser, hany]

/-- Witness for the C5 theorem at concrete inputs: duplicate registration
against a state already holding the user, successful registration against
the empty registry. -/
theorem registerUser_spec_witness :
    registerUser sState ⟨"", "alice@x", "zz"⟩ "id9" (fun p => "H" ++ p) =
      (Except.error Err.duplicateUser, sState) ∧
    registerUser emptyApp ⟨"", "alice@x", "pw"⟩ "id1" (fun p => "H" ++ p) =
      (Except.ok "id1",
        { emptyApp with users :=
            emptyApp.users ++ [(⟨"id1", "alice@x", "Hpw"⟩ : User)] }) :=
  registerUser_spec sState ⟨"", "alice@x", "zz"⟩ "id9" (fun p => "H" ++ p)
    emptyApp ⟨"", "alice@x", "pw"⟩ "id1" (fun p => "H" ++ p)
    ⟨alice, by decide, rfl⟩ (by decide)

/-- C7: `registerBike(b)` returns the freshly generated identifier, and
`getBikeById` on that identifier succeeds with a bike equal to `b` in all
fields except the identifier, which is the assigned one.  Freshness of
the generated identifier (guaranteed globally by `crypto.randomUUID`) is
the hypothesis. -/
theorem registerBike_roundtrip (s : AppState) (b : Bike) (newId : String)
    (hfresh : ∀ b2 ∈ s.bikes, b2.id ≠ newId) :
    (registerBike s b newId).1 = newId ∧
    getBikeById (registerBike s b newId).2 newId = Except.ok { b with id := newId } := by
  refine ⟨rfl, ?_⟩
  have hnone : s.bikes.find? (fun bk => bk.id == newId) = none :=
    find?_none_of_all (fun y hy => by simp [hfresh y hy])
  simp [getBikeById, findBike, registerBike, List.find?_append, hnone]

/-- Witness for the C7 theorem at concrete inputs. -/
theorem registerBike_roundtrip_witness :
    (registerBike sState bike1 "b7").1 = "b7" ∧
    getBikeById (registerBike sState bike1 "b7").2 "b7" =
      Except.ok { bike1 with id := "b7" } :=
  registerBike_roundtrip sState bike1 "b7" (by decide)

/-- C9: when no user has the email, `getUserByEmail` returns an absent
result while `findUser` fails with `UserNotFound`; when a user with the
email exists, both return that same user.  The two scenarios are recorded
at two independent sets of inputs. -/
theorem getUserByEmail_vs_findUser (s1 : AppState) (email1 : String)
    (habs : ∀ v ∈ s1.users, v.email ≠ email1)
    (s2 : AppState) (email2 : String)
    (hex : ∃ v ∈ s2.users, v.email = email2) :
    (getUserByEmail s1 email1 = none ∧
      findUser s1 email1 = Except.error Err.userNotFound) ∧
    ∃ w ∈ s2.users, w.email = email2 ∧
      getUserByEmail s2 email2 = some w ∧ findUser s2 email2 = Except.ok w := by
  have hnone : s1.users.find? (fun u => u.email == email1) = none :=
    find?_none_of_all (fun y hy => by simp [habs y hy])
  refine ⟨⟨by simp [getUserByEmail, hnone], by simp [findUser, hnone]⟩, ?_⟩
  have hsome : (s2.users.find? (fun u => u.email == email2)).isSome := by
    rw [List.find?_isSome]
    obtain ⟨v, hv, he⟩ := hex
    exact ⟨v, hv, by simp [he]⟩
  obtain ⟨w, hw⟩ := Option.isSome_iff_exists.mp hsome
  refine ⟨w, List.mem_of_find?_eq_some hw, ?_, ?_, ?_⟩
  · simpa using List.find?_some hw
  · simpa [getUserByEmail] using hw
  · simp [findUser, hw]

/-- Witness for the C9 theorem at concrete inputs. -/
theorem getUserByEmail_vs_findUser_witness :
    (getUserByEmail sState "bob@y" = none ∧
      findUser sState "bob@y" = Except.error Err.userNotFound) ∧
    ∃ w ∈ sState.users, w.email = "alice@x" ∧
      getUserByEmail sState "alice@x" = some w ∧
      findUser sState "alice@x" = Except.ok w :=
  getUserByEmail_vs_findUser sState "bob@y" (by decide)
    sState "alice@x" ⟨alice, by decide, rfl⟩

/-- C3: when a user with the email exists (and, per the documented
invariant, no two users share an email), `removeUser` fails with
`UserHasOpenRents` exactly when the rent-lookup collaborator reports a
non-empty list of open rents for the email; otherwise it splices that
user out, after which no user with the email is in `listUsers()`. -/
theorem removeUser_open_rents (s : AppState) (openRentsFor : String → List Rent)
    (email : String) (u : User)
    (hu : s.users.find? (fun v => v.email == email) = some u)
    (hnodup : (s.users.map User.email).Nodup) :
    ((removeUser s openRentsFor email).1 = Except.error Err.userHasOpenRents ↔
      openRentsFor email ≠ []) ∧
    (openRentsFor email = [] →
      removeUser s openRentsFor email =
        (Except.ok (),
          { s with users := removeFirst (fun v => v.email == email) s.users }) ∧
      ∀ v ∈ listUsers (removeUser s openRentsFor email).2, v.email ≠ email) := by
  obtain ⟨hp, l1, l2, heq, hall⟩ := find?_decomp hu
  have hue : u.email = email := by simpa using hp
  have hsucc : openRentsFor email = [] →
      removeUser s openRentsFor email =
        (Except.ok (),
          { s with users := removeFirst (fun v => v.email == email) s.users }) := by
    intro hnil
    simp [removeUser, hu, hnil]
  constructor
  · constructor
    · intro h1
      intro hnil
      rw [hsucc hnil] at h1
      exact absurd h1 (by simp)
    · intro hne
      have hlen : 0 < (openRentsFor email).length := List.length_pos.mpr hne
      simp [removeUser, hu, hlen]
  · intro hnil
    refine ⟨hsucc hnil, ?_⟩
    intro v hv
    rw [hsucc hnil] at hv
    have hrf : removeFirst (fun v => v.email == email) s.users = l1 ++ l2 := by
      rw [heq]
      exact removeFirst_append_cons _ _ _ _ hall hp
    simp only [listUsers] at hv
    rw [hrf] at hv
    have hnd2 : (u.email :: (l1.map User.email ++ l2.map User.email)).Nodup := by
      rw [heq, List.map_append, List.map_cons] at hnodup
      exact List.nodup_middle.mp hnodup
    have hnotin : u.email ∉ l1.map User.email ++ l2.map User.email :=
      (List.nodup_cons.mp hnd2).1
    rcases List.mem_append.mp hv with h | h
    · simpa using hall v h
    · intro hveq
      apply hnotin
      apply List.mem_append.mpr
      right
      have hm : v.email ∈ l2.map User.email := List.mem_map_of_mem User.email h
      rw [hveq, ← hue] at hm
      exact hm

/-- Witness for the C3 theorem at concrete inputs: the same stored user,
once with an open rent reported by the collaborator and once with none. -/
theorem removeUser_open_rents_witness :
    (((removeUser sState oneOpenRent "alice@x").1 =
        Except.error Err.userHasOpenRents ↔ oneOpenRent "alice@x" ≠ []) ∧
      (oneOpenRent "alice@x" = [] →
        removeUser sState oneOpenRent "alice@x" =
          (Except.ok (),
            { sState with users :=
                removeFirst (fun v => v.email == "alice@x") sState.users }) ∧
        ∀ v ∈ listUsers (removeUser sState oneOpenRent "alice@x").2,
          v.email ≠ "alice@x")) ∧
    ((removeUser sState (fun _ => []) "alice@x").1 =
        Except.error Err.userHasOpenRents ↔ (fun _ => ([] : List Rent)) "alice@x" ≠ []) ∧
    ((fun _ => ([] : List Rent)) "alice@x" = [] →
      removeUser sState (fun _ => []) "alice@x" =
        (Except.ok (),
          { sState with users :=
              removeFirst (fun v => v.email == "alice@x") sState.users }) ∧
      ∀ v ∈ listUsers (removeUser sState (fun _ => []) "alice@x").2,
        v.email ≠ "alice@x") :=
  ⟨removeUser_open_rents sState oneOpenRent "alice@x" alice rfl (by decide),
   removeUser_open_rents sState (fun _ => []) "alice@x" alice rfl (by decide)⟩

/-- C8: when the bike is present (the bikes array splits around the first
bike carrying the id), `moveBikeTo` succeeds and the new state differs
from the old only in that bike's location, which now holds the given
latitude and longitude — all other bikes, the users and the rents are
untouched; when no bike has the id, it fails with `BikeNotFound` and the
state is unchanged (recorded at a second arbitrary input). -/
theorem moveBikeTo_spec (s : AppState) (bikeId : String) (loc : Location)
    (l1 l2 : List Bike) (bike : Bike)
    (hsplit : s.bikes = l1 ++ bike :: l2)
    (hl1 : ∀ y ∈ l1, y.id ≠ bikeId)
    (hid : bike.id = bikeId)
    (s2 : AppState) (bikeId2 : String) (loc2 : Location)
    (habs : ∀ y ∈ s2.bikes, y.id ≠ bikeId2) :
    moveBikeTo s bikeId loc =
      (Except.ok (),
        { s with bikes :=
            l1 ++ { bike with location := ⟨loc.latitude, loc.longitude⟩ } :: l2 }) ∧
    moveBikeTo s2 bikeId2 loc2 = (Except.error Err.bikeNotFound, s2) := by
  constructor
  · have hfind : s.bikes.find? (fun b => b.id == bikeId) = some bike := by
      rw [hsplit, List.find?_append]
      have h1 : l1.find? (fun b => b.id == bikeId) = none :=
        find?_none_of_all (fun y hy => by simp [hl1 y hy])
      rw [h1, List.find?_cons_of_pos _ (by simp [hid])]
      rfl
    have hupd : updateFirst (fun b => b.id == bikeId)
        (fun b => { b with location := ⟨loc.latitude, loc.longitude⟩ }) s.bikes =
        l1 ++ { bike with location := ⟨loc.latitude, loc.longitude⟩ } :: l2 := by
      rw [hsplit]
      exact updateFirst_append_cons _ _ _ _ _
        (fun y hy => by simp [hl1 y hy]) (by simp [hid])
    simp [moveBikeTo, findBike, hfind, hupd]
  · have hnone : s2.bikes.find? (fun b => b.id == bikeId2) = none :=
      find?_none_of_all (fun y hy => by simp [habs y hy])
    simp [moveBikeTo, findBike, hnone]

/-- Witness for the C8 theorem at concrete inputs: a two-bike state where
the second bike is moved, and a lookup of an unregistered id. -/
theorem moveBikeTo_spec_witness :
    moveBikeTo ⟨[alice], [bike0, bike1], []⟩ "b1" ⟨7, 8⟩ =
      (Except.ok (),
        { (⟨[alice], [bike0, bike1], []⟩ : AppState) with bikes :=
            [bike0] ++ { bike1 with location := ⟨7, 8⟩ } :: [] }) ∧
    moveBikeTo sState "zz" ⟨7, 8⟩ = (Except.error Err.bikeNotFound, sState) :=
  moveBikeTo_spec ⟨[alice], [bike0, bike1], []⟩ "b1" ⟨7, 8⟩
    [bike0] [] bike1 rfl (by decide) rfl
    sState "zz" ⟨7, 8⟩ (by decide)

/-- C6: registering an available bike (fresh generated id) and renting it
for an existing user leaves the bike, in the new state, with availability
flag false; and whenever the bike lookup yields a bike whose availability
flag is false, `rentBike` fails with `UnavailableBike` for every supplied
email, including emails of absent users (recorded at a second arbitrary
input). -/
theorem rentBike_unavailable_spec (s : AppState) (bike : Bike)
    (newId userEmail : String) (user : User) (now : ℚ)
    (hav : bike.available = true)
    (hfresh : ∀ b2 ∈ s.bikes, b2.id ≠ newId)
    (hu : s.users.find? (fun v => v.email == userEmail) = some user)
    (s2 : AppState) (bikeId2 email2 : String) (bike2 : Bike) (now2 : ℚ)
    (hb2 : findBike s2 bikeId2 = Except.ok bike2)
    (hunav : bike2.available = false) :
    (rentBike (registerBike s bike newId).2 newId userEmail now).1 = Except.ok () ∧
    { bike with id := newId, available := false } ∈
      (rentBike (registerBike s bike newId).2 newId userEmail now).2.bikes ∧
    (rentBike s2 bikeId2 email2 now2).1 = Except.error Err.unavailableBike := by
  have hnone : s.bikes.find? (fun b => b.id == newId) = none :=
    find?_none_of_all (fun y hy => by simp [hfresh y hy])
  have hpos : (({ bike with id := newId } : Bike).id == newId) = true := by simp
  have hfind2 : (s.bikes ++ [({ bike with id := newId } : Bike)]).find?
      (fun b => b.id == newId) = some { bike with id := newId } := by
    simp [List.find?_append, hnone]
  have hfind : (registerBike s bike newId).2.bikes.find? (fun b => b.id == newId) =
      some { bike with id := newId } := hfind2
  have hfb : findBike (registerBike s bike newId).2 newId =
      Except.ok { bike with id := newId } := findBike_ok.mpr hfind
  have hfu : findUser (registerBike s bike newId).2 userEmail = Except.ok user := by
    apply findUser_ok.mpr
    show s.users.find? (fun v => v.email == userEmail) = some user
    exact hu
  have hupd2 := updateFirst_append_cons (fun (b : Bike) => b.id == newId)
    (fun b => { b with available := false }) s.bikes []
    ({ bike with id := newId }) (fun y hy => by simp [hfresh y hy]) hpos
  have hupd : updateFirst (fun b => b.id == newId)
      (fun b => { b with available := false }) (registerBike s bike newId).2.bikes =
      s.bikes ++ [{ bike with id := newId, available := false }] := hupd2
  refine ⟨?_, ?_, ?_⟩
  · simp [rentBike, hfb, hav, hfu]
  · simp [rentBike, hfb, hav, hfu, hupd]
  · simp [rentBike, hb2, hunav]

/-- Witness for the C6 theorem at concrete inputs: register-then-rent on
the sample state, and a rent attempt by an absent user on the already
rented bike. -/
theorem rentBike_unavailable_spec_witness :
    (rentBike (registerBike sState bike0 "b7").2 "b7" "alice@x" 0).1 = Except.ok () ∧
    { bike0 with id := "b7", available := false } ∈
      (rentBike (registerBike sState bike0 "b7").2 "b7" "alice@x" 0).2.bikes ∧
    (rentBike sRented "b1" "nobody@z" 5).1 = Except.error Err.unavailableBike :=
  rentBike_unavailable_spec sState bike0 "b7" "alice@x" alice 0 rfl (by decide) rfl
    sRented "b1" "nobody@z" bike1 5 rfl rfl

/-- C10: whenever `rentBike` fails, the resulting state is the input
state unchanged; in particular when the bike exists and is available but
the user email is absent, it fails with `UserNotFound` and the state —
availability flag included — is untouched, because the source flips
availability only after the user lookup succeeds (recorded at a second
arbitrary input). -/
theorem rentBike_atomic (s : AppState) (bikeId userEmail : String) (now : ℚ) (e : Err)
    (hfail : (rentBike s bikeId userEmail now).1 = Except.error e)
    (s2 : AppState) (bikeId2 email2 : String) (bike2 : Bike) (now2 : ℚ)
    (hb2 : findBike s2 bikeId2 = Except.ok bike2)
    (hav2 : bike2.available = true)
    (hu2 : ∀ v ∈ s2.users, v.email ≠ email2) :
    (rentBike s bikeId userEmail now).2 = s ∧
    rentBike s2 bikeId2 email2 now2 = (Except.error Err.userNotFound, s2) := by
  constructor
  · cases hfb : findBike s bikeId with
    | error e1 => simp [rentBike, hfb]
    | ok bike =>
        by_cases hav : bike.available = false
        · simp [rentBike, hfb, hav]
        · cases hfu : findUser s userEmail with
          | error e1 => simp [rentBike, hfb, hav, hfu]
          | ok user =>
              have hok : (rentBike s bikeId userEmail now).1 = Except.ok () := by
                simp [rentBike, hfb, hav, hfu]
              rw [hok] at hfail
              exact absurd hfail (by simp)
  · have hnone : s2.users.find? (fun v => v.email == email2) = none :=
      find?_none_of_all (fun y hy => by simp [hu2 y hy])
    have hfu : findUser s2 email2 = Except.error Err.userNotFound := by
      simp [findUser, hnone]
    have hav2' : ¬ bike2.available = false := by simp [hav2]
    simp [rentBike, hb2, hav2', hfu]

/-- Witness for the C10 theorem at concrete inputs: a failing rent of an
unregistered bike, and a rent of an available bike by an absent user. -/
theorem rentBike_atomic_witness :
    (rentBike sState "zz" "alice@x" 0).2 = sState ∧
    rentBike sState "b0" "nobody@z" 0 = (Except.error Err.userNotFound, sState) :=
  rentBike_atomic sState "zz" "alice@x" 0 Err.bikeNotFound rfl
    sState "b0" "nobody@z" bike0 0 rfl rfl (by decide)

/-- C2: when the rent collection holds an open rent matching the bike id
and user email (the `find` yields it) and the referenced bike resolves in
the bike collection, `returnBike` returns `diffHours(now, start) * rate`
— the fractional elapsed-hours fee — and the new state holds that rent
closed with end timestamp `now` and the referenced bike available
again. -/
theorem returnBike_spec (s : AppState) (bikeId userEmail : String) (now : ℚ)
    (rent : Rent) (bike : Bike)
    (hr : s.rents.find? (rentMatches bikeId userEmail) = some rent)
    (hb : s.bikes.find? (fun b => b.id == rent.bikeId) = some bike) :
    (returnBike s bikeId userEmail now).1 =
      Except.ok (diffHours now rent.start * bike.rate) ∧
    { rent with endTime := some now } ∈ (returnBike s bikeId userEmail now).2.rents ∧
    { bike with available := true } ∈ (returnBike s bikeId userEmail now).2.bikes := by
  obtain ⟨hpr, r1, r2, hreq, hrall⟩ := find?_decomp hr
  obtain ⟨hpb, b1, b2, hbeq, hball⟩ := find?_decomp hb
  have h1 : updateFirst (rentMatches bikeId userEmail)
      (fun r => { r with endTime := some now }) s.rents =
      r1 ++ { rent with endTime := some now } :: r2 := by
    rw [hreq]
    exact updateFirst_append_cons _ _ _ _ _ hrall hpr
  have h2 : updateFirst (fun b => b.id == rent.bikeId)
      (fun b => { b with available := true }) s.bikes =
      b1 ++ { bike with available := true } :: b2 := by
    rw [hbeq]
    exact updateFirst_append_cons _ _ _ _ _ hball hpb
  refine ⟨?_, ?_, ?_⟩ <;> simp [returnBike, hr, hb, h1, h2]

theorem nodup_map_ne {g : α → β} {l1 l2 : List α} {x : α}
    (hnd : ((l1 ++ x :: l2).map g).Nodup) :
    ∀ y, (y ∈ l1 ∨ y ∈ l2) → g y ≠ g x := by
  rw [List.map_append, List.map_cons] at hnd
  have h := (List.nodup_cons.mp (List.nodup_middle.mp hnd)).1
  intro y hy hgy
  apply h
  apply List.mem_append.mpr
  rcases hy with h1 | h1
  · left
    rw [← hgy]
    exact List.mem_map_of_mem g h1
  · right
    rw [← hgy]
    exact List.mem_map_of_mem g h1

theorem openFor_singleton_pos {r : Rent} {bid : String}
    (h1 : r.bikeId = bid) (h2 : r.endTime = none) : openFor [r] bid = [r] := by
  simp [openFor, h1, h2]

theorem openFor_singleton_neg {r : Rent} {bid : String} (h1 : r.bikeId ≠ bid) :
    openFor [r] bid = [] := by
  simp [openFor, h1]

theorem inv_emptyApp : Inv emptyApp := by
  unfold Inv
  refine ⟨by simp [emptyApp], by simp [emptyApp], ?_⟩
  intro bid
  simp [emptyApp, openFor]

theorem inv_frame {s t : AppState} (hb : t.bikes = s.bikes) (hr : t.rents = s.rents)
    (h : Inv s) : Inv t := by
  unfold Inv at h ⊢
  rw [hb, hr]
  exact h

theorem inv_registerBike (s : AppState) (bike : Bike) (newId : String)
    (hav : bike.available = true)
    (hfreshB : ∀ b ∈ s.bikes, b.id ≠ newId)
    (hfreshR : ∀ r ∈ s.rents, r.bikeId ≠ newId)
    (h : Inv s) : Inv (registerBike s bike newId).2 := by
  obtain ⟨hnd, hiff, hone⟩ := h
  have hbikes : (registerBike s bike newId).2.bikes =
      s.bikes ++ [{ bike with id := newId }] := rfl
  have hrents : (registerBike s bike newId).2.rents = s.rents := rfl
  unfold Inv
  rw [hbikes, hrents]
  refine ⟨?_, ?_, hone⟩
  · rw [List.map_append, List.nodup_append]
    refine ⟨hnd, by simp, ?_⟩
    intro a ha ha2
    have ha3 : a = newId := by simpa using ha2
    rcases List.mem_map.mp ha with ⟨b2, hmem, heq2⟩
    exact hfreshB b2 hmem (heq2.trans ha3)
  · intro b' hb'
    rcases List.mem_append.mp hb' with h1 | h1
    · exact hiff b' h1
    · have hb2 : b' = { bike with id := newId } := by simpa using h1
      subst hb2
      have hOF : openFor s.rents newId = [] := openFor_nil_of_fresh hfreshR
      constructor
      · intro hfalse
        have hfalse2 : bike.available = false := hfalse
        rw [hav] at hfalse2
        cases hfalse2
      · intro hne
        exact absurd hOF hne

theorem rentBike_success (s : AppState) (bikeId userEmail : String) (now : ℚ)
    (bike : Bike) (user : User)
    (hfb : findBike s bikeId = Except.ok bike)
    (hav : ¬ bike.available = false)
    (hfu : findUser s userEmail = Except.ok user) :
    rentBike s bikeId userEmail now =
      (Except.ok (),
        { s with
            bikes := updateFirst (fun b => b.id == bikeId)
              (fun b => { b with available := false }) s.bikes,
            rents := s.rents ++ [⟨bike.id, user.email, now, none⟩] }) := by
  simp [rentBike, hfb, hav, hfu]

theorem inv_rentBike (s : AppState) (bikeId userEmail : String) (now : ℚ)
    (h : Inv s) : Inv (rentBike s bikeId userEmail now).2 := by
  cases hfb : findBike s bikeId with
  | error e => exact inv_frame (by simp [rentBike, hfb]) (by simp [rentBike, hfb]) h
  | ok bike =>
      by_cases hav : bike.available = false
      · exact inv_frame (by simp [rentBike, hfb, hav]) (by simp [rentBike, hfb, hav]) h
      · cases hfu : findUser s userEmail with
        | error e =>
            exact inv_frame (by simp [rentBike, hfb, hav, hfu])
              (by simp [rentBike, hfb, hav, hfu]) h
        | ok user =>
            rw [rentBike_success s bikeId userEmail now bike user hfb hav hfu]
            obtain ⟨hnd, hiff, hone⟩ := h
            have hfind := findBike_ok.mp hfb
            obtain ⟨hpb, l1, l2, hbeq, hball⟩ := find?_decomp hfind
            have hbid : bike.id = bikeId := by simpa using hpb
            have havT : bike.available = true := by
              cases hb2 : bike.available
              · exact absurd hb2 hav
              · rfl
            have hmemBike : bike ∈ s.bikes := by
              rw [hbeq]
              exact List.mem_append.mpr (Or.inr (List.mem_cons_self _ _))
            have hupd : updateFirst (fun b => b.id == bikeId)
                (fun b => { b with available := false }) s.bikes =
                l1 ++ { bike with available := false } :: l2 := by
              rw [hbeq]
              exact updateFirst_append_cons _ _ _ _ _ hball hpb
            have hne : ∀ y, y ∈ l1 ∨ y ∈ l2 → y.id ≠ bike.id := by
              have hnd2 : ((l1 ++ bike :: l2).map Bike.id).Nodup := by
                rw [← hbeq]
                exact hnd
              exact fun y hy => nodup_map_ne hnd2 y hy
            have hOFbike : openFor s.rents bike.id = [] := by
              by_contra hcon
              have hres := (hiff bike hmemBike).mpr hcon
              rw [havT] at hres
              cases hres
            unfold Inv
            refine ⟨?_, ?_, ?_⟩
            · show ((updateFirst (fun b => b.id == bikeId)
                  (fun b => { b with available := false }) s.bikes).map Bike.id).Nodup
              rw [map_updateFirst Bike.id (fun b => b.id == bikeId)
                (fun b => { b with available := false }) s.bikes (fun x => rfl)]
              exact hnd
            · intro b' hb'
              have hb'2 : b' ∈ l1 ++ { bike with available := false } :: l2 := by
                rw [← hupd]
                exact hb'
              have hrents : ({ s with
                  bikes := updateFirst (fun b => b.id == bikeId)
                    (fun b => { b with available := false }) s.bikes,
                  rents := s.rents ++ [⟨bike.id, user.email, now, none⟩] } :
                    AppState).rents = s.rents ++ [⟨bike.id, user.email, now, none⟩] := rfl
              rw [hrents, openFor_append]
              rcases List.mem_append.mp hb'2 with h1 | h1
              · have hne1 : b'.id ≠ bike.id := hne b' (Or.inl h1)
                rw [openFor_singleton_neg (fun hc => hne1 hc.symm), List.append_nil]
                exact hiff b' (by rw [hbeq]; exact List.mem_append.mpr (Or.inl h1))
              · rcases List.mem_cons.mp h1 with h2 | h2
                · subst h2
                  have hid2 : ({ bike with available := false } : Bike).id = bike.id := rfl
                  rw [hid2, hOFbike,
                    openFor_singleton_pos rfl rfl]
                  simp
                · have hne1 : b'.id ≠ bike.id := hne b' (Or.inr h2)
                  rw [openFor_singleton_neg (fun hc => hne1 hc.symm), List.append_nil]
                  exact hiff b' (by
                    rw [hbeq]
                    exact List.mem_append.mpr (Or.inr (List.mem_cons_of_mem _ h2)))
            · intro bid
              show (openFor (s.rents ++ [⟨bike.id, user.email, now, none⟩]) bid).length ≤ 1
              rw [openFor_append]
              by_cases hc : bid = bike.id
              · subst hc
                rw [hOFbike, List.nil_append]
                exact List.length_filter_le _ _
              · rw [openFor_singleton_neg (fun hc2 => hc hc2.symm), List.append_nil]
                exact hone bid

theorem returnBike_success (s : AppState) (bikeId userEmail : String) (now : ℚ)
    (rent : Rent) (bike : Bike)
    (hr : s.rents.find? (rentMatches bikeId userEmail) = some rent)
    (hb : s.bikes.find? (fun b => b.id == rent.bikeId) = some bike) :
    returnBike s bikeId userEmail now =
      (Except.ok (diffHours now rent.start * bike.rate),
        { s with
            rents := updateFirst (rentMatches bikeId userEmail)
              (fun r => { r with endTime := some now }) s.rents,
            bikes := updateFirst (fun b => b.id == rent.bikeId)
              (fun b => { b with available := true }) s.bikes }) := by
  simp [returnBike, hr, hb]

theorem inv_returnBike (s : AppState) (bikeId userEmail : String) (now : ℚ)
    (h : Inv s) : Inv (returnBike s bikeId userEmail now).2 := by
  cases hr : s.rents.find? (rentMatches bikeId userEmail) with
  | none => exact inv_frame (by simp [returnBike, hr]) (by simp [returnBike, hr]) h
  | some rent =>
      cases hb : s.bikes.find? (fun b => b.id == rent.bikeId) with
      | none =>
          exact inv_frame (by simp [returnBike, hr, hb])
            (by simp [returnBike, hr, hb]) h
      | some bike =>
          rw [returnBike_success s bikeId userEmail now rent bike hr hb]
          obtain ⟨hnd, hiff, hone⟩ := h
          obtain ⟨hpr, r1, r2, hreq, hrall⟩ := find?_decomp hr
          obtain ⟨hpb, b1, b2, hbeq, hball⟩ := find?_decomp hb
          have hbid : bike.id = rent.bikeId := by simpa using hpb
          have hrop : rent.endTime = none := by
            have h3 : rentMatches bikeId userEmail rent = true := hpr
            unfold rentMatches at h3
            simp [Option.isNone_iff_eq_none] at h3
            exact h3.2
          have hrupd : updateFirst (rentMatches bikeId userEmail)
              (fun r => { r with endTime := some now }) s.rents =
              r1 ++ { rent with endTime := some now } :: r2 := by
            rw [hreq]
            exact updateFirst_append_cons _ _ _ _ _ hrall hpr
          have hbupd : updateFirst (fun b => b.id == rent.bikeId)
              (fun b => { b with available := true }) s.bikes =
              b1 ++ { bike with available := true } :: b2 := by
            rw [hbeq]
            exact updateFirst_append_cons _ _ _ _ _ hball hpb
          have hneB : ∀ y, y ∈ b1 ∨ y ∈ b2 → y.id ≠ bike.id := by
            have hnd2 : ((b1 ++ bike :: b2).map Bike.id).Nodup := by
              rw [← hbeq]
              exact hnd
            exact fun y hy => nodup_map_ne hnd2 y hy
          have hsplitOF : ∀ bid, openFor s.rents bid =
              openFor r1 bid ++ (openFor [rent] bid ++ openFor r2 bid) := by
            intro bid
            rw [hreq, ← List.singleton_append, openFor_append, openFor_append]
          have hO12 : openFor r1 rent.bikeId = [] ∧ openFor r2 rent.bikeId = [] := by
            have h1 := hone rent.bikeId
            rw [hsplitOF rent.bikeId, openFor_singleton_pos rfl hrop] at h1
            simp only [List.length_append, List.length_cons, List.length_singleton] at h1
            constructor
            · rw [← List.length_eq_zero]
              omega
            · rw [← List.length_eq_zero]
              omega
          have hclosed : ∀ bid, openFor [{ rent with endTime := some now }] bid = [] := by
            intro bid
            simp [openFor]
          have hsplitOF2 : ∀ bid,
              openFor (r1 ++ { rent with endTime := some now } :: r2) bid =
              openFor r1 bid ++ openFor r2 bid := by
            intro bid
            rw [← List.singleton_append, openFor_append, openFor_append, hclosed,
              List.nil_append]
          unfold Inv
          refine ⟨?_, ?_, ?_⟩
          · show ((updateFirst (fun b => b.id == rent.bikeId)
                (fun b => { b with available := true }) s.bikes).map Bike.id).Nodup
            rw [map_updateFirst Bike.id (fun b => b.id == rent.bikeId)
              (fun b => { b with available := true }) s.bikes (fun x => rfl)]
            exact hnd
          · intro b' hb'
            have hb'2 : b' ∈ b1 ++ { bike with available := true } :: b2 := by
              rw [← hbupd]
              exact hb'
            show b'.available = false ↔
              openFor (updateFirst (rentMatches bikeId userEmail)
                (fun r => { r with endTime := some now }) s.rents) b'.id ≠ []
            rw [hrupd, hsplitOF2]
            rcases List.mem_append.mp hb'2 with h1 | h1
            · have hne1 : b'.id ≠ rent.bikeId := fun hc =>
                hneB b' (Or.inl h1) (by rw [hbid, hc])
              have hof : openFor r1 b'.id ++ openFor r2 b'.id = openFor s.rents b'.id := by
                rw [hsplitOF b'.id, openFor_singleton_neg (fun hc => hne1 hc.symm),
                  List.nil_append]
              rw [hof]
              exact hiff b' (by rw [hbeq]; exact List.mem_append.mpr (Or.inl h1))
            · rcases List.mem_cons.mp h1 with h2 | h2
              · subst h2
                have hav2 : ({ bike with available := true } : Bike).available = true := rfl
                have hid2 : ({ bike with available := true } : Bike).id = bike.id := rfl
                rw [hav2, hid2, hbid, hO12.1, hO12.2]
                simp
              · have hne1 : b'.id ≠ rent.bikeId := fun hc =>
                  hneB b' (Or.inr h2) (by rw [hbid, hc])
                have hof : openFor r1 b'.id ++ openFor r2 b'.id =
                    openFor s.rents b'.id := by
                  rw [hsplitOF b'.id, openFor_singleton_neg (fun hc => hne1 hc.symm),
                    List.nil_append]
                rw [hof]
                exact hiff b' (by
                  rw [hbeq]
                  exact List.mem_append.mpr (Or.inr (List.mem_cons_of_mem _ h2)))
          · intro bid
            show (openFor (updateFirst (rentMatches bikeId userEmail)
                (fun r => { r with endTime := some now }) s.rents) bid).length ≤ 1
            rw [hrupd, hsplitOF2]
            have h1 := hone bid
            rw [hsplitOF bid] at h1
            simp only [List.length_append] at h1 ⊢
            omega

theorem inv_moveBikeTo (s : AppState) (bikeId : String) (location : Location)
    (h : Inv s) : Inv (moveBikeTo s bikeId location).2 := by
  cases hfb : findBike s bikeId with
  | error e => exact inv_frame (by simp [moveBikeTo, hfb]) (by simp [moveBikeTo, hfb]) h
  | ok bike =>
      obtain ⟨hnd, hiff, hone⟩ := h
      have hbikes : (moveBikeTo s bikeId location).2.bikes =
          updateFirst (fun b => b.id == bikeId)
            (fun b => { b with location := ⟨location.latitude, location.longitude⟩ })
            s.bikes := by
        simp [moveBikeTo, hfb]
      have hrents : (moveBikeTo s bikeId location).2.rents = s.rents := by
        simp [moveBikeTo, hfb]
      unfold Inv
      rw [hbikes, hrents]
      refine ⟨?_, ?_, hone⟩
      · rw [map_updateFirst Bike.id (fun b => b.id == bikeId)
          (fun b => { b with location := ⟨location.latitude, location.longitude⟩ })
          s.bikes (fun x => rfl)]
        exact hnd
      · intro b' hb'
        rcases mem_updateFirst hb' with h1 | ⟨x, hx, hfx⟩
        · exact hiff b' h1
        · subst hfx
          have := hiff x hx
          simpa using this

theorem inv_reachableAvail {s : AppState} (h : ReachableAvail s) : Inv s := by
  induction h with
  | init => exact inv_emptyApp
  | regUser user newId encrypt _ ih =>
      exact inv_frame (registerUser_frame _ user newId encrypt).1
        (registerUser_frame _ user newId encrypt).2 ih
  | regBike bike newId _ hav hfB hfR ih =>
      exact inv_registerBike _ bike newId hav hfB hfR ih
  | rent bikeId userEmail now _ ih => exact inv_rentBike _ bikeId userEmail now ih
  | ret bikeId userEmail now _ ih => exact inv_returnBike _ bikeId userEmail now ih
  | remove openRentsFor email _ ih =>
      exact inv_frame (removeUser_frame _ openRentsFor email).1
        (removeUser_frame _ openRentsFor email).2 ih
  | move bikeId location _ ih => exact inv_moveBikeTo _ bikeId location ih

/-- C1 counterexample: the claim quantifies over states reached by the
operations with arbitrary arguments, and `registerBike` keeps the
caller-supplied availability flag; registering a bike whose availability
flag is false (with no rent anywhere) reaches a state where the flag is
false yet no open rent references the bike. -/
theorem availability_invariant_counterexample :
    Reachable (registerBike emptyApp ⟨"x", 10, false, loc0⟩ "b1").2 ∧
    ¬ InvC1 (registerBike emptyApp ⟨"x", 10, false, loc0⟩ "b1").2 := by
  constructor
  · exact Reachable.regBike ⟨"x", 10, false, loc0⟩ "b1" Reachable.init
      (by decide) (by decide)
  · intro hinv
    have h1 := hinv ⟨"b1", 10, false, loc0⟩ (by decide)
    obtain ⟨r, hr, _⟩ := h1.mp rfl
    exact absurd hr (List.not_mem_nil r)

/-- C1 (amended): in every state reachable from the empty registry by the
registry operations where each `registerBike` call supplies a bike whose
availability flag is true (and generated identifiers are globally
unique), a bike's availability flag is false if and only if some rent in
the rent collection references that bike and has no end timestamp. -/
theorem availability_invariant (s : AppState) (h : ReachableAvail s) : InvC1 s := by
  obtain ⟨hnd, hiff, hone⟩ := inv_reachableAvail h
  intro bike hb
  rw [hiff bike hb]
  exact openFor_ne_nil_iff s.rents bike.id

/-- Witness for the amended C1 theorem on a concrete reachable state with
a registered bike. -/
theorem availability_invariant_witness :
    InvC1 (registerBike emptyApp bike0 "b1").2 :=
  availability_invariant _
    (ReachableAvail.regBike bike0 "b1" ReachableAvail.init rfl (by decide) (by decide))

/-- Witness for the C2 theorem at concrete inputs, exhibiting the spec's
example: rate 10 and a duration of 2h30m (9,000,000 ms) yield fee 25. -/
theorem returnBike_spec_witness :
    ((returnBike sRented "b1" "alice@x" 9000000).1 =
        Except.ok (diffHours 9000000 (0 : ℚ) * bike1.rate) ∧
      { (⟨"b1", "alice@x", 0, none⟩ : Rent) with endTime := some 9000000 } ∈
        (returnBike sRented "b1" "alice@x" 9000000).2.rents ∧
      { bike1 with available := true } ∈
        (returnBike sRented "b1" "alice@x" 9000000).2.bikes) ∧
    diffHours 9000000 (0 : ℚ) * bike1.rate = 25 :=
  ⟨returnBike_spec sRented "b1" "alice@x" 9000000 ⟨"b1", "alice@x", 0, none⟩ bike1
      rfl rfl,
    by norm_num [diffHours, bike1, abs_of_nonneg]⟩

end Poo10
